import Mathlib

/-!
Shallow embedding of the price-checker browser extension's core logic:
the price/currency text utilities (src/front-end/src/extractors/utils.ts),
the currency converter (src/utils/currency.ts), the cache-key builder,
comparison cache and orchestrator (src/front-end/src/background.ts), and
the storage-layer cache-invalidation event (src/utils/storage.ts).

Modelling conventions:
* JavaScript numbers are modelled as exact rationals (`ℚ`); timestamps as `ℤ`
  milliseconds.  `NaN`/`Infinity` results of `parseFloat` are modelled by the
  inductive `JsNum`.
* JavaScript strings are Lean `String`s; `Map<string, _>` is an association
  list with at most one binding per key; `undefined`/`null` arguments are
  `Option`.
* Asynchronous functions are modelled by passing their awaited inputs (the
  fetched rate table, the API response, the current time) explicitly.
-/

namespace PriceChecker

/-! ### JavaScript character classes -/

/-- The character class of the JavaScript regexp `\s` (also the set removed
by `String.prototype.trim`): tab, line feed, vertical tab, form feed,
carriage return, space, no-break space, ogham space mark, the U+2000–U+200A
range, line separator, paragraph separator, narrow no-break space, medium
mathematical space, ideographic space, and the byte-order mark. -/
def isJsWhitespace (c : Char) : Bool :=
  let n := c.toNat
  n = 9 || n = 10 || n = 11 || n = 12 || n = 13 || n = 32 || n = 160 ||
  n = 5760 || (8192 ≤ n && n ≤ 8202) || n = 8232 || n = 8233 || n = 8239 ||
  n = 8287 || n = 12288 || n = 65279

/-- ASCII decimal digit, `0`–`9`. -/
def isDigitCh (c : Char) : Bool :=
  48 ≤ c.toNat && c.toNat ≤ 57

/-- ASCII letter, `A`–`Z` or `a`–`z`. -/
def isAsciiLetter (c : Char) : Bool :=
  (65 ≤ c.toNat && c.toNat ≤ 90) || (97 ≤ c.toNat && c.toNat ≤ 122)

/-! ### A model of JavaScript `parseFloat` -/

/-- Result of `parseFloat`: not-a-number, a signed infinity (`true` =
negative), or a finite value.  Finite values are modelled as the exact
rational value of the parsed decimal literal (the engine additionally rounds
to the nearest IEEE double; the program only ever compares values that round
identically). -/
inductive JsNum where
  | nan : JsNum
  | inf : Bool → JsNum
  | fin : ℚ → JsNum
deriving DecidableEq

/-- Longest leading run of decimal digits, returned as digit values together
with the unconsumed remainder. -/
def takeDigits : List Char → List ℕ × List Char
  | [] => ([], [])
  | c :: rest =>
    if isDigitCh c then
      let p := takeDigits rest
      ((c.toNat - 48) :: p.1, p.2)
    else ([], c :: rest)

/-- Value of a digit string read in base 10. -/
def digitsToNat (ds : List ℕ) : ℕ :=
  ds.foldl (fun a d => 10 * a + d) 0

/-- Exact value of a decimal literal with integer digits `ints`, fraction
digits `fracs` and decimal exponent `e`: the rational
`(ints.fracs) * 10 ^ e`. -/
def decValue (ints fracs : List ℕ) (e : ℤ) : ℚ :=
  let num : ℕ := digitsToNat ints * 10 ^ fracs.length + digitsToNat fracs
  match e with
  | Int.ofNat k => mkRat (num * 10 ^ k) (10 ^ fracs.length)
  | Int.negSucc k => mkRat num (10 ^ fracs.length * 10 ^ (k + 1))

/-- Signed digits of an exponent part; an empty digit run means the exponent
part is not a valid literal tail and contributes nothing. -/
def expDigits (neg : Bool) (cs : List Char) : ℤ :=
  let p := takeDigits cs
  if p.1.isEmpty then 0
  else if neg then -(digitsToNat p.1 : ℤ) else (digitsToNat p.1 : ℤ)

/-- Exponent part of a decimal literal (`e`/`E`, optional sign, digits); a
malformed tail is ignored, as `parseFloat` only consumes the longest valid
literal prefix. -/
def parseExp (cs : List Char) : ℤ :=
  match cs with
  | [] => 0
  | c :: rest =>
    if c = 'e' ∨ c = 'E' then
      match rest with
      | [] => 0
      | s :: r2 =>
        if s = '+' then expDigits false r2
        else if s = '-' then expDigits true r2
        else expDigits false rest
    else 0

/-- Longest valid unsigned decimal-literal prefix (`digits`, `digits.`,
`digits.digits` or `.digits`, with an optional exponent part); `none` when
no digit is found, which is `parseFloat`'s NaN case. -/
def parseDecimalLiteral (cs : List Char) : Option ℚ :=
  let p1 := takeDigits cs
  match p1.2 with
  | c :: r2 =>
    if c = '.' then
      let p2 := takeDigits r2
      if p1.1.isEmpty && p2.1.isEmpty then none
      else some (decValue p1.1 p2.1 (parseExp p2.2))
    else if p1.1.isEmpty then none
    else some (decValue p1.1 [] (parseExp (c :: r2)))
  | [] =>
    if p1.1.isEmpty then none
    else some (decValue p1.1 [] 0)

/-- Whether the text begins with the literal token `Infinity`, which
`parseFloat` accepts as an infinity. -/
def hasInfinityToken (cs : List Char) : Bool :=
  match cs with
  | 'I' :: 'n' :: 'f' :: 'i' :: 'n' :: 'i' :: 't' :: 'y' :: _ => true
  | _ => false

/-- The part of `parseFloat` after the optional sign has been consumed. -/
def parseAfterSign (neg : Bool) (cs : List Char) : JsNum :=
  if hasInfinityToken cs then JsNum.inf neg
  else
    match parseDecimalLiteral cs with
    | some q => JsNum.fin (if neg then -q else q)
    | none => JsNum.nan

/-- JavaScript `parseFloat`: skip leading whitespace, consume an optional
sign, then the longest `Infinity`-or-decimal-literal prefix; anything else
yields NaN.  Trailing garbage is ignored. -/
def jsParseFloat (s : String) : JsNum :=
  match s.data.dropWhile isJsWhitespace with
  | [] => JsNum.nan
  | c :: rest =>
    if c = '-' then parseAfterSign true rest
    else if c = '+' then parseAfterSign false rest
    else parseAfterSign false (c :: rest)

/-! ### extractors/utils.ts -/

/-- The fixed symbol set stripped by `parsePrice`'s first regexp,
`/[$£€₦₹¥]/g`. -/
def currencySymbolChars : List Char := ['$', '£', '€', '₦', '₹', '¥']

/-- Strip leading and trailing JavaScript whitespace (`String.prototype.trim`). -/
def jsTrimChars (cs : List Char) : List Char :=
  ((cs.dropWhile isJsWhitespace).reverse.dropWhile isJsWhitespace).reverse

/-- The cleaning pipeline of `parsePrice`: remove the fixed currency symbols,
then commas and `\s` whitespace, then trim. -/
def cleanPriceText (s : String) : String :=
  let afterSymbols := s.data.filter (fun c => !(currencySymbolChars.contains c))
  let afterFormat := afterSymbols.filter (fun c => !(c == ',' || isJsWhitespace c))
  ⟨jsTrimChars afterFormat⟩

/-- `parsePrice` from extractors/utils.ts: falsy input (null, undefined or
the empty string) yields `undefined`; otherwise the cleaned text is passed to
`parseFloat` and a NaN result becomes `undefined`. -/
def parsePrice (priceText : Option String) : Option JsNum :=
  match priceText with
  | none => none
  | some s =>
    if s = "" then none
    else
      match jsParseFloat (cleanPriceText s) with
      | JsNum.nan => none
      | v => some v

/-- `a.includes(b)` on JavaScript strings: `b` occurs as a contiguous
substring of `a`. -/
def startsWithSeq : List Char → List Char → Bool
  | [], _ => true
  | _ :: _, [] => false
  | a :: as, b :: bs => a == b && startsWithSeq as bs

/-- Substring occurrence at any position. -/
def containsSeq (sub : List Char) : List Char → Bool
  | [] => sub.isEmpty
  | c :: rest => startsWithSeq sub (c :: rest) || containsSeq sub rest

/-- `s.includes(sub)`. -/
def strContains (s sub : String) : Bool :=
  containsSeq sub.data s.data

/-- JavaScript `x || dflt` on an optional string: `undefined`/`null` and the
empty string are falsy and select the default. -/
def jsStrOr (o : Option String) (dflt : String) : String :=
  match o with
  | some s => if s = "" then dflt else s
  | none => dflt

/-- `detectCurrency` from extractors/utils.ts.  `windowHostname` stands for
`window.location.hostname`, read when no hostname argument is supplied. -/
def detectCurrency (priceText hostname : Option String) (windowHostname : String) : String :=
  let text := jsStrOr priceText ""
  let domain := jsStrOr hostname windowHostname
  if strContains text "$" then "USD"
  else if strContains text "£" then "GBP"
  else if strContains text "€" then "EUR"
  else if strContains text "₦" then "NGN"
  else if strContains text "₹" then "INR"
  else if strContains text "¥" then "JPY"
  else if strContains text "C$" || strContains text "CAD" then "CAD"
  else if strContains text "A$" || strContains text "AUD" then "AUD"
  else if strContains domain ".com" then "USD"
  else if strContains domain ".co.uk" then "GBP"
  else if strContains domain ".de" || strContains domain ".fr" || strContains domain ".es" then "EUR"
  else if strContains domain ".ng" || strContains domain "jumia.com.ng" then "NGN"
  else if strContains domain ".in" then "INR"
  else if strContains domain ".jp" then "JPY"
  else if strContains domain ".ca" then "CAD"
  else if strContains domain ".au" then "AUD"
  else "USD"

/-! ### Data model (type/item.ts) -/

/-- `ProductIdentifiers` from type/item.ts; every field is optional. -/
structure ProductIdentifiers where
  upc : Option String := none
  ean : Option String := none
  gtin : Option String := none
  asin : Option String := none
  ebay_item_id : Option String := none
  mpn : Option String := none
  model_number : Option String := none
  brand : Option String := none
  specifications : List (String × String) := []
deriving DecidableEq

/-- `ProductMatchRequest` from type/item.ts (the `POST /api/compare` body). -/
structure ProductMatchRequest where
  title : String
  current_price : Option ℚ := none
  currency : Option String := none
  current_site : Option String := none
  url : Option String := none
  image : Option String := none
  target_currency : Option String := none
  identifiers : Option ProductIdentifiers := none
deriving DecidableEq

/-- `SitePrice` from type/item.ts: one comparison candidate. -/
structure SitePrice where
  site : String
  title : String
  price : ℚ
  currency : String
  price_usd : ℚ
  price_converted : Option ℚ := none
  target_currency : Option String := none
  link : String
  image : Option String := none
  match_confidence : Option ℚ := none
deriving DecidableEq

/-- `PriceComparisonResult` from type/item.ts. -/
structure PriceComparisonResult where
  best_deal : Option SitePrice
  all_prices : List SitePrice
deriving DecidableEq

/-! ### Currency converter (src/utils/currency.ts) -/

/-- A JavaScript `Record<string, number>` of exchange rates, modelled as an
association list; lookup takes the first binding. -/
abbrev Rates := List (String × ℚ)

/-- `rates[c]`: `undefined` when the key is absent. -/
def ratesLookup (rates : Rates) (c : String) : Option ℚ :=
  (rates.find? (fun p => p.1 = c)).map (fun p => p.2)

/-- `rates[c] || 1`: an absent (`undefined`) or zero (falsy) rate falls back
to `1`. -/
def jsRateOr1 (rates : Rates) (c : String) : ℚ :=
  match ratesLookup rates c with
  | some r => if r = 0 then 1 else r
  | none => 1

/-- `convertCurrencySync` from src/utils/currency.ts: identical currencies
return the amount unchanged; otherwise divide by the source rate (into the
USD base) and multiply by the target rate. -/
def convertCurrencySync (amount : ℚ) (fromCurrency toCurrency : String)
    (rates : Rates) : ℚ :=
  if fromCurrency = toCurrency then amount
  else
    let fromRate := jsRateOr1 rates fromCurrency
    let toRate := jsRateOr1 rates toCurrency
    let usdAmount := amount / fromRate
    usdAmount * toRate

/-- `convertCurrency` from src/utils/currency.ts: identical to the sync
variant except that the rate table is awaited from `getExchangeRates()`,
modelled here as an explicit argument holding the awaited snapshot. -/
def convertCurrency (amount : ℚ) (fromCurrency toCurrency : String)
    (rates : Rates) : ℚ :=
  if fromCurrency = toCurrency then amount
  else
    let fromRate := jsRateOr1 rates fromCurrency
    let toRate := jsRateOr1 rates toCurrency
    let usdAmount := amount / fromRate
    usdAmount * toRate

/-- `convertFromUSDSync` from src/utils/currency.ts. -/
def convertFromUSDSync (usdAmount : ℚ) (targetCurrency : String)
    (rates : Rates) : ℚ :=
  let rate := jsRateOr1 rates targetCurrency
  usdAmount * rate

/-! ### Comparison cache and orchestrator (background.ts) -/

/-- `CACHE_DURATION = 5 * 60 * 1000` (5 minutes).  Timestamps are `Date.now()`
values in milliseconds, modelled as `ℤ`. -/
def CACHE_DURATION : ℤ := 5 * 60 * 1000

/-- `CachedResult` from background.ts. -/
structure CachedResult where
  data : PriceComparisonResult
  timestamp : ℤ
deriving DecidableEq

/-- The in-memory `Map<string, CachedResult>`, as an association list with at
most one binding per key. -/
abbrev Cache := List (String × CachedResult)

/-- `cache.get(key)` of the underlying `Map` (no freshness check). -/
def cacheLookup (c : Cache) (k : String) : Option CachedResult :=
  (c.find? (fun p => p.1 = k)).map (fun p => p.2)

/-- `cache.set(key, v)`: replaces any existing binding for the key.  The
binding's position in the list is irrelevant to `cacheLookup`. -/
def cacheSet (c : Cache) (k : String) (v : CachedResult) : Cache :=
  c.filter (fun p => !(p.1 == k)) ++ [(k, v)]

/-- The cache-hit test of `handleComparePriceRequest`: a physically present
entry is returned only while `now - timestamp < CACHE_DURATION`. -/
def cacheGetFresh (c : Cache) (k : String) (now : ℤ) :
    Option PriceComparisonResult :=
  match cacheLookup c k with
  | some e => if now - e.timestamp < CACHE_DURATION then some e.data else none
  | none => none

/-- Body of the 30-minute `setInterval` sweep in background.ts: physically
delete every entry with `now - timestamp > CACHE_DURATION`. -/
def cacheSweep (c : Cache) (now : ℤ) : Cache :=
  c.filter (fun p => !(now - p.2.timestamp > CACHE_DURATION))

/-- The `clearCache` message handler in background.ts (`cache.clear()`),
triggered by `setCurrencyPreference` in src/utils/storage.ts whenever the
user changes the target-currency preference. -/
def cacheClear (_c : Cache) : Cache := []

/-- ASCII case folding, modelling `String.prototype.toLowerCase` on the
character range the key builder handles. -/
def jsCharToLower (c : Char) : Char :=
  if 65 ≤ c.toNat ∧ c.toNat ≤ 90 then Char.ofNat (c.toNat + 32) else c

/-- `s.toLowerCase()`. -/
def jsToLower (s : String) : String :=
  ⟨s.data.map jsCharToLower⟩

/-- `array.join("|")`. -/
def joinPipe : List String → String
  | [] => ""
  | [s] => s
  | s :: rest => s ++ "|" ++ joinPipe rest

/-- `array.filter(Boolean)` over string-or-undefined values: drops
`undefined` and the empty string. -/
def jsTruthyFilter (parts : List (Option String)) : List String :=
  parts.filterMap (fun o =>
    match o with
    | some s => if s = "" then none else some s
    | none => none)

/-- `generateCacheKey` from background.ts: join title, the asin/upc/ean/
ebay_item_id identifiers and the target currency (defaulting to USD) with
`|`, dropping falsy parts, then lower-case the whole key. -/
def generateCacheKey (productData : ProductMatchRequest) : String :=
  let identifiers := productData.identifiers
  let parts : List (Option String) :=
    [some productData.title,
     identifiers.bind (fun i => i.asin),
     identifiers.bind (fun i => i.upc),
     identifiers.bind (fun i => i.ean),
     identifiers.bind (fun i => i.ebay_item_id),
     some (jsStrOr productData.target_currency "USD")]
  jsToLower (joinPipe (jsTruthyFilter parts))

/-- The per-candidate conversion done inside `applyUserCurrencyConversion`:
spread the candidate and overwrite `price_converted`/`target_currency`. -/
def convertSitePrice (p : SitePrice) (targetCurrency : String)
    (rates : Rates) : SitePrice :=
  { p with
    price_converted := some (convertFromUSDSync p.price_usd targetCurrency rates),
    target_currency := some targetCurrency }

/-- `applyUserCurrencyConversion` from background.ts: a USD target returns
the data unchanged (the API already reports USD); otherwise every candidate
and the best-deal slot are converted with the awaited rate snapshot. -/
def applyUserCurrencyConversion (data : PriceComparisonResult)
    (targetCurrency : String) (rates : Rates) : PriceComparisonResult :=
  if targetCurrency = "USD" then data
  else
    { all_prices :=
        data.all_prices.map (fun p => convertSitePrice p targetCurrency rates),
      best_deal :=
        data.best_deal.map (fun b => convertSitePrice b targetCurrency rates) }

/-- The cache-miss path of `handleComparePriceRequest`: convert the awaited
API response, store it under the computed key with the current timestamp, and
answer the caller with the converted data tagged `cached = false`.  Returns
(updated cache, response data, cached flag). -/
def handleCompareMiss (c : Cache) (key : String)
    (apiData : PriceComparisonResult) (targetCurrency : String)
    (rates : Rates) (now : ℤ) : Cache × PriceComparisonResult × Bool :=
  let convertedData := applyUserCurrencyConversion apiData targetCurrency rates
  (cacheSet c key ⟨convertedData, now⟩, convertedData, false)

/-! ### Shared helper lemmas and sample values -/

/-- A `rates[c] || 1` rate is never zero: a zero rate is falsy in JavaScript
and falls back to `1`. -/
theorem jsRateOr1_ne_zero (R : Rates) (c : String) : jsRateOr1 R c ≠ 0 := by
  unfold jsRateOr1
  cases h : ratesLookup R c with
  | none => norm_num
  | some r =>
    by_cases hr : r = 0
    · simp [hr]
    · simp [hr]

/-- Looking up a key right after `cache.set(key, v)` yields `v`. -/
theorem cacheLookup_cacheSet_self (c : Cache) (k : String) (v : CachedResult) :
    cacheLookup (cacheSet c k v) k = some v := by
  unfold cacheLookup cacheSet
  rw [List.find?_append]
  have hnone : (c.filter (fun p => !(p.1 == k))).find? (fun p => p.1 = k) = none := by
    rw [List.find?_eq_none]
    intro x hx
    have := List.of_mem_filter hx
    simp at this
    simp [this]
  simp [hnone]

/-- `toLowerCase` distributes over string concatenation. -/
theorem jsToLower_append (a b : String) :
    jsToLower (a ++ b) = jsToLower a ++ jsToLower b := by
  cases a with
  | mk da =>
    cases b with
    | mk db =>
      show jsToLower ⟨da ++ db⟩ = _
      simp [jsToLower, String.ext_iff]

/-- `toLowerCase` commutes with `join("|")`, because `|` is case-invariant. -/
theorem jsToLower_joinPipe (l : List String) :
    jsToLower (joinPipe l) = joinPipe (l.map jsToLower) := by
  induction l with
  | nil => rfl
  | cons s rest ih =>
    cases rest with
    | nil => rfl
    | cons s2 r2 =>
      show jsToLower (s ++ "|" ++ joinPipe (s2 :: r2)) = _
      rw [jsToLower_append, jsToLower_append, ih]
      rfl

/-- `toLowerCase` preserves emptiness. -/
theorem jsToLower_eq_empty_iff (s : String) : jsToLower s = "" ↔ s = "" := by
  cases s with
  | mk d =>
    simp [jsToLower, String.ext_iff]

/-- Equality of every `SitePrice` field except the two conversion outputs
`price_converted` and `target_currency`. -/
def frameEq (a b : SitePrice) : Prop :=
  a.site = b.site ∧ a.title = b.title ∧ a.price = b.price ∧
  a.currency = b.currency ∧ a.price_usd = b.price_usd ∧ a.link = b.link ∧
  a.image = b.image ∧ a.match_confidence = b.match_confidence

/-- The documented shape of an external comparison response: `best_deal` is a
`price_usd`-minimal member of `all_prices`, or null exactly when `all_prices`
is empty. -/
def bestDealInvariant (d : PriceComparisonResult) : Prop :=
  match d.best_deal with
  | none => d.all_prices = []
  | some b => b ∈ d.all_prices ∧ ∀ p ∈ d.all_prices, b.price_usd ≤ p.price_usd

/-- `frameEq` is reflexive. -/
theorem frameEq_refl (a : SitePrice) : frameEq a a :=
  ⟨rfl, rfl, rfl, rfl, rfl, rfl, rfl, rfl⟩

/-- Conversion rewrites only the two conversion outputs. -/
theorem frameEq_convertSitePrice (p : SitePrice) (t : String) (R : Rates) :
    frameEq (convertSitePrice p t R) p :=
  ⟨rfl, rfl, rfl, rfl, rfl, rfl, rfl, rfl⟩

/-- An ASCII letter is not whitespace, not a digit, and none of the sign or
decimal-point characters that `parseFloat` consumes before digits. -/
theorem letter_not_special (c : Char) (halpha : isAsciiLetter c = true) :
    isJsWhitespace c = false ∧ isDigitCh c = false ∧
    c ≠ '-' ∧ c ≠ '+' ∧ c ≠ '.' := by
  unfold isAsciiLetter at halpha
  simp only [Bool.or_eq_true, Bool.and_eq_true, decide_eq_true_eq] at halpha
  have h45 : ('-').toNat = 45 := by decide
  have h43 : ('+').toNat = 43 := by decide
  have h46 : ('.').toNat = 46 := by decide
  refine ⟨?_, ?_, ?_, ?_, ?_⟩
  · unfold isJsWhitespace
    simp only [Bool.or_eq_false_iff, Bool.and_eq_false_iff, decide_eq_false_iff_not]
    omega
  · unfold isDigitCh
    simp only [Bool.and_eq_false_iff, decide_eq_false_iff_not]
    omega
  · intro he; rw [he, h45] at halpha; omega
  · intro he; rw [he, h43] at halpha; omega
  · intro he; rw [he, h46] at halpha; omega

/-- An empty comparison result, used as a concrete cache value. -/
def sampleResult : PriceComparisonResult := { best_deal := none, all_prices := [] }

/-- A concrete unconverted comparison candidate, as delivered by the external
comparison service. -/
def samplePrice : SitePrice :=
  { site := "amazon", title := "Widget", price := 10, currency := "USD",
    price_usd := 10, link := "https://example.com/widget" }

/-- A concrete external API response holding `samplePrice`. -/
def sampleApiData : PriceComparisonResult :=
  { best_deal := none, all_prices := [samplePrice] }

/-- A concrete rate snapshot with a EUR rate. -/
def sampleRates : Rates := [("EUR", mkRat 92 100)]

/-- A concrete response whose best deal is its only candidate. -/
def sampleBestDealData : PriceComparisonResult :=
  { best_deal := some samplePrice, all_prices := [samplePrice] }

/-! ### Claim C1 — identity key determinism -/

/-- A match request with the spec's plain example title. -/
def plainTitleReq : ProductMatchRequest :=
  { title := "Apple iPhone 15", target_currency := some "USD" }

/-- The same logical product with incidental whitespace differences in the
title, the spec's second example. -/
def spacedTitleReq : ProductMatchRequest :=
  { title := "  apple   iphone 15 ", target_currency := some "USD" }

/-- Claim C1 counterexample: the two example requests of the spec — titles
`"Apple iPhone 15"` and `"  apple   iphone 15 "`, identical identifiers and
target currency — receive different keys from `generateCacheKey`, because the
key builder lower-cases but never normalizes whitespace. -/
theorem generateCacheKey_whitespace_counterexample :
    plainTitleReq.identifiers = spacedTitleReq.identifiers ∧
    plainTitleReq.target_currency = spacedTitleReq.target_currency ∧
    generateCacheKey plainTitleReq ≠ generateCacheKey spacedTitleReq := by
  decide

/-- Claim C1 (amended): for every pair of product match requests whose titles
agree after lower-casing (letter-case differences only — whitespace must
match exactly), with equal identifiers and equal target currency,
`generateCacheKey` produces an identical key string. -/
theorem generateCacheKey_case_insensitive (r1 r2 : ProductMatchRequest)
    (ht : jsToLower r1.title = jsToLower r2.title)
    (hi : r1.identifiers = r2.identifiers)
    (hc : r1.target_currency = r2.target_currency) :
    generateCacheKey r1 = generateCacheKey r2 := by
  unfold generateCacheKey
  rw [jsToLower_joinPipe, jsToLower_joinPipe, hi, hc]
  congr 1
  simp only [jsTruthyFilter, List.filterMap_cons]
  by_cases h1 : r1.title = ""
  · have h2 : r2.title = "" := by
      rw [← jsToLower_eq_empty_iff, ← ht, jsToLower_eq_empty_iff, h1]
    simp [h1, h2]
  · have h2 : r2.title ≠ "" := by
      intro h2
      exact h1 (by rw [← jsToLower_eq_empty_iff, ht, jsToLower_eq_empty_iff, h2])
    simp [h1, h2, ht]

/-- Witness for C1: two requests whose titles differ only in letter case get
the same key. -/
theorem generateCacheKey_case_insensitive_witness :
    generateCacheKey { title := "Apple iPhone 15", target_currency := some "USD" } =
    generateCacheKey { title := "APPLE IPHONE 15", target_currency := some "USD" } :=
  generateCacheKey_case_insensitive
    { title := "Apple iPhone 15", target_currency := some "USD" }
    { title := "APPLE IPHONE 15", target_currency := some "USD" }
    (by decide) rfl rfl

/-! ### Claim C2 — conversion on the cache-miss path -/

/-- Claim C2 counterexample: with target currency `"USD"` the cache-miss path
returns the API candidates untouched, so a candidate arriving without
`price_converted` is answered to the caller with `price_converted` still
unpopulated.  The claim's universal quantification over target currencies
fails at `"USD"`. -/
theorem handleCompareMiss_usd_skips_conversion :
    ((handleCompareMiss [] "key" sampleApiData "USD" sampleRates 0).2.1).all_prices
      = [samplePrice] ∧
    samplePrice.price_converted = none := by
  exact ⟨rfl, rfl⟩

/-- Claim C2 (amended): on every cache miss with a non-USD target currency,
every candidate in the returned `all_prices` and the `best_deal` slot (when
non-null) carry `price_converted = convertFromUSDSync price_usd` and
`target_currency` set to the viewer's target, and the result is tagged
`cached = false`; for the USD target the data is returned as delivered by the
API. -/
theorem handleCompareMiss_populates_conversion (c : Cache) (key : String)
    (apiData : PriceComparisonResult) (t : String) (R : Rates) (now : ℤ)
    (h : t ≠ "USD") :
    (∀ p ∈ ((handleCompareMiss c key apiData t R now).2.1).all_prices,
        p.price_converted = some (convertFromUSDSync p.price_usd t R) ∧
        p.target_currency = some t) ∧
    (∀ b, ((handleCompareMiss c key apiData t R now).2.1).best_deal = some b →
        b.price_converted = some (convertFromUSDSync b.price_usd t R) ∧
        b.target_currency = some t) ∧
    (handleCompareMiss c key apiData t R now).2.2 = false := by
  refine ⟨?_, ?_, rfl⟩
  · unfold handleCompareMiss
    simp only [applyUserCurrencyConversion, if_neg h]
    intro p hp
    rcases List.mem_map.1 hp with ⟨q, hq, rfl⟩
    exact ⟨rfl, rfl⟩
  · unfold handleCompareMiss
    simp only [applyUserCurrencyConversion, if_neg h]
    intro b hb
    cases hbd : apiData.best_deal with
    | none => rw [hbd, Option.map_none'] at hb; exact absurd hb (by simp)
    | some q =>
      rw [hbd] at hb
      simp only [Option.map_some', Option.some.injEq] at hb
      rw [← hb]
      exact ⟨rfl, rfl⟩

/-- Witness for C2: the single candidate returned for a EUR-target miss has
its conversion fields populated. -/
theorem handleCompareMiss_populates_conversion_witness :
    (convertSitePrice samplePrice "EUR" sampleRates).price_converted =
      some (convertFromUSDSync
        (convertSitePrice samplePrice "EUR" sampleRates).price_usd "EUR" sampleRates) ∧
    (convertSitePrice samplePrice "EUR" sampleRates).target_currency = some "EUR" :=
  (handleCompareMiss_populates_conversion [] "key" sampleApiData "EUR" sampleRates 0
      (by decide)).1
    (convertSitePrice samplePrice "EUR" sampleRates)
    (by simp [handleCompareMiss, applyUserCurrencyConversion, sampleApiData])

/-! ### Claim C3 — detectCurrency and the C$ token -/

/-- Claim C3 is a code bug: the source checks `text.includes("$")` before
`text.includes("C$")`, so the two-character case is unreachable for any text
containing `C$` — `detectCurrency("C$5.99", hostname)` returns `"USD"` for
every hostname, where the spec requires `"CAD"`. -/
theorem detectCurrency_cdollar_returns_usd :
    ∀ (hostname : Option String) (windowHostname : String),
      strContains "C$5.99" "C$" = true ∧
      detectCurrency (some "C$5.99") hostname windowHostname = "USD" := by
  intro hostname windowHostname
  exact ⟨by decide, rfl⟩

/-! ### Claim C4 — cache TTL semantics -/

/-- Claim C4: after `set(key, v)` a `get(key)` with `now - timestamp <
CACHE_DURATION` (5 minutes) is a hit returning `v`; once the TTL has elapsed
the same `get` is a miss even though the entry still physically exists
(lazy expiry, ahead of the 30-minute sweep); and in general the cache never
returns an entry whose age is at least the TTL. -/
theorem cache_ttl_fresh_hit_stale_miss (c : Cache) (k : String)
    (d : PriceComparisonResult) (t now : ℤ) :
    (now - t < CACHE_DURATION →
      cacheGetFresh (cacheSet c k ⟨d, t⟩) k now = some d) ∧
    (CACHE_DURATION ≤ now - t →
      cacheGetFresh (cacheSet c k ⟨d, t⟩) k now = none ∧
      cacheLookup (cacheSet c k ⟨d, t⟩) k = some ⟨d, t⟩) ∧
    (∀ r, cacheGetFresh c k now = some r →
      ∃ e, cacheLookup c k = some e ∧ e.data = r ∧
        now - e.timestamp < CACHE_DURATION) := by
  refine ⟨?_, ?_, ?_⟩
  · intro h
    simp [cacheGetFresh, cacheLookup_cacheSet_self, h]
  · intro h
    refine ⟨?_, cacheLookup_cacheSet_self c k ⟨d, t⟩⟩
    have hlt : ¬ (now - t < CACHE_DURATION) := by
      unfold CACHE_DURATION at h ⊢; omega
    simp [cacheGetFresh, cacheLookup_cacheSet_self, hlt]
  · intro r hr
    unfold cacheGetFresh at hr
    cases he : cacheLookup c k with
    | none => simp [he] at hr
    | some e =>
      simp only [he] at hr
      by_cases hfresh : now - e.timestamp < CACHE_DURATION
      · simp only [if_pos hfresh] at hr
        exact ⟨e, rfl, Option.some.inj hr, hfresh⟩
      · simp only [if_neg hfresh] at hr
        exact absurd hr (by simp)

/-- Witness for C4: a concrete entry written at time 0 is a hit at 1 second
and a miss at exactly 5 minutes. -/
theorem cache_ttl_fresh_hit_stale_miss_witness :
    cacheGetFresh (cacheSet [] "k" ⟨sampleResult, 0⟩) "k" 1000 = some sampleResult ∧
    cacheGetFresh (cacheSet [] "k" ⟨sampleResult, 0⟩) "k" 300000 = none :=
  ⟨(cache_ttl_fresh_hit_stale_miss [] "k" sampleResult 0 1000).1 (by decide),
   ((cache_ttl_fresh_hit_stale_miss [] "k" sampleResult 0 300000).2.1 (by decide)).1⟩

/-! ### Claim C5 — currency-preference change clears the cache -/

/-- Claim C5: after the `clearCache` message (sent by
`setCurrencyPreference` on a currency-preference change) empties the cache,
every key that was previously a cache hit is a miss on the next `get`. -/
theorem clearCache_invalidates_all (c : Cache) (k : String) (now1 now2 : ℤ)
    (r : PriceComparisonResult) (_hit : cacheGetFresh c k now1 = some r) :
    cacheGetFresh (cacheClear c) k now2 = none := by
  simp [cacheClear, cacheGetFresh, cacheLookup]

/-- Witness for C5: a freshly written key misses right after the clear. -/
theorem clearCache_invalidates_all_witness :
    cacheGetFresh (cacheClear (cacheSet [] "k" ⟨sampleResult, 0⟩)) "k" 0 = none :=
  clearCache_invalidates_all (cacheSet [] "k" ⟨sampleResult, 0⟩) "k" 0 0
    sampleResult (by decide)

/-! ### Claim C6 — identity conversion is exact -/

/-- Claim C6: converting any amount from a currency to itself, with any rate
table, returns the amount unchanged — both `convertCurrencySync` and
`convertCurrency` short-circuit before touching the base-currency rates. -/
theorem convert_same_currency_identity (amount : ℚ) (c : String) (rates : Rates) :
    convertCurrencySync amount c c rates = amount ∧
    convertCurrency amount c c rates = amount :=
  ⟨by simp [convertCurrencySync], by simp [convertCurrency]⟩

/-! ### Claim C7 — round-trip conversion is exact over ℚ -/

/-- Claim C7: with one fixed rate snapshot, converting an amount from one
currency to another and back returns the original amount exactly under
rational arithmetic (the effective rates `rates[c] || 1` are never zero); the
spec's `USD → EUR → USD` composition is the instance `c1 = "USD"`,
`c2 = "EUR"`. -/
theorem convert_roundtrip_exact (a : ℚ) (c1 c2 : String) (R : Rates) :
    convertCurrencySync (convertCurrencySync a c1 c2 R) c2 c1 R = a := by
  by_cases h : c1 = c2
  · subst h
    simp [convertCurrencySync]
  · have hf := jsRateOr1_ne_zero R c1
    have ht := jsRateOr1_ne_zero R c2
    simp only [convertCurrencySync, if_neg h, if_neg (Ne.symm h)]
    field_simp
    ring

/-! ### Claim C8 — parsePrice examples and totality -/

/-- Claim C8: `parsePrice` strips the fixed symbols, commas and whitespace
and then decimal-parses: `"$999.99"` yields `999.99`, `"₦450,000.00"` yields
`450000`, and empty, null or undefined input yields `undefined`.  (The
embedding is a total function, so no input can fault.) -/
theorem parsePrice_spec_values :
    parsePrice (some "$999.99") = some (JsNum.fin ((99999 : ℚ) / 100)) ∧
    parsePrice (some "₦450,000.00") = some (JsNum.fin 450000) ∧
    parsePrice (some "") = none ∧
    parsePrice none = none := by
  refine ⟨?_, by decide, by decide, rfl⟩
  have h : mkRat 99999 100 = (99999 : ℚ) / 100 := by
    norm_num [mkRat, Rat.normalize]
  rw [← h]
  decide

/-! ### Claim C9 — the conversion step is a frame transformation -/

/-- Claim C9: `applyUserCurrencyConversion` changes only `price_converted`
and `target_currency` on each candidate (`frameEq` holds pointwise between
output and input), preserves the order and length of `all_prices`, returns a
null `best_deal` exactly when the input's was null, and preserves the
best-deal-is-minimal invariant of the external response. -/
theorem applyUserCurrencyConversion_frame (d : PriceComparisonResult)
    (t : String) (R : Rates) :
    List.Forall₂ frameEq (applyUserCurrencyConversion d t R).all_prices d.all_prices ∧
    ((applyUserCurrencyConversion d t R).best_deal = none ↔ d.best_deal = none) ∧
    ((applyUserCurrencyConversion d t R).all_prices.length = d.all_prices.length) ∧
    (bestDealInvariant d → bestDealInvariant (applyUserCurrencyConversion d t R)) := by
  by_cases h : t = "USD"
  · subst h
    refine ⟨?_, Iff.rfl, rfl, fun hinv => ?_⟩
    · simp only [applyUserCurrencyConversion, if_pos rfl]
      exact List.forall₂_same.2 fun x _ => frameEq_refl x
    · simpa [applyUserCurrencyConversion] using hinv
  · simp only [applyUserCurrencyConversion, if_neg h]
    refine ⟨?_, ?_, ?_, ?_⟩
    · rw [List.forall₂_map_left_iff]
      exact List.forall₂_same.2 fun x _ => frameEq_convertSitePrice x t R
    · simp
    · simp
    · intro hinv
      unfold bestDealInvariant at hinv ⊢
      cases hb : d.best_deal with
      | none =>
        rw [hb] at hinv
        simp [hb, hinv]
      | some b =>
        rw [hb] at hinv
        simp only [hb, Option.map_some']
        constructor
        · exact List.mem_map_of_mem _ hinv.1
        · intro p hp
          rcases List.mem_map.1 hp with ⟨q, hq, rfl⟩
          exact hinv.2 q hq

/-- Witness for C9: a concrete response whose best deal is its only
candidate still satisfies the best-deal invariant after EUR conversion. -/
theorem applyUserCurrencyConversion_frame_witness :
    bestDealInvariant (applyUserCurrencyConversion sampleBestDealData "EUR" sampleRates) :=
  (applyUserCurrencyConversion_frame sampleBestDealData "EUR" sampleRates).2.2.2
    (by simp [bestDealInvariant, sampleBestDealData])

/-! ### Claim C10 — letter-prefixed price texts -/

/-- Claim C10 counterexample: `"Infinity5"` is a price text in which a letter
precedes the digits after symbol stripping, yet `parsePrice` returns the
parsed `Infinity` value rather than `undefined`, because `parseFloat` accepts
the literal `Infinity` token. -/
theorem parsePrice_infinity_counterexample :
    cleanPriceText "Infinity5" = "Infinity5" ∧
    isAsciiLetter 'I' = true ∧
    parsePrice (some "Infinity5") = some (JsNum.inf false) := by
  decide

/-- Claim C10 (amended): for every price text whose cleaned form starts with
an ASCII letter and does not start with the literal `Infinity` token,
`parsePrice` returns `undefined`: only `$ £ € ₦ ₹ ¥` are stripped, the
leading letter survives and the decimal parse fails — in particular every
`C$`/`A$`-symbol price yields no numeric price. -/
theorem parsePrice_letter_head_none (s : String) (c : Char)
    (hc : (cleanPriceText s).data.head? = some c)
    (halpha : isAsciiLetter c = true)
    (hinf : hasInfinityToken (cleanPriceText s).data = false) :
    parsePrice (some s) = none := by
  rcases hlist : (cleanPriceText s).data with _ | ⟨a, tl⟩
  · rw [hlist] at hc
    exact absurd hc (by simp)
  · rw [hlist] at hc
    simp only [List.head?_cons, Option.some.injEq] at hc
    have halpha2 : isAsciiLetter a = true := by rw [hc]; exact halpha
    obtain ⟨hw, hd, hminus, hplus, hdot⟩ := letter_not_special a halpha2
    rw [hlist] at hinf
    have hs : s ≠ "" := by
      intro he
      rw [he] at hlist
      exact absurd hlist (by simp [cleanPriceText, jsTrimChars])
    have htake : takeDigits (a :: tl) = ([], a :: tl) := by
      unfold takeDigits
      rw [hd]
      simp
    have hnan : jsParseFloat (cleanPriceText s) = JsNum.nan := by
      unfold jsParseFloat
      rw [hlist, List.dropWhile_cons, hw]
      simp only [Bool.false_eq_true, if_false, if_neg hminus, if_neg hplus]
      unfold parseAfterSign
      rw [hinf]
      simp only [Bool.false_eq_true, if_false]
      unfold parseDecimalLiteral
      rw [htake]
      simp only [if_neg hdot, List.isEmpty_nil, if_pos rfl]
      simp
    simp only [parsePrice, if_neg hs, hnan]

/-- Witness for C10: the spec's CAD- and AUD-formatted examples both yield
`undefined`. -/
theorem parsePrice_letter_head_none_witness :
    parsePrice (some "C$5.99") = none ∧ parsePrice (some "A$1,299.00") = none :=
  ⟨parsePrice_letter_head_none "C$5.99" 'C' (by decide) (by decide) (by decide),
   parsePrice_letter_head_none "A$1,299.00" 'A' (by decide) (by decide) (by decide)⟩

end PriceChecker
